import Mathlib

/-!
Shallow embedding of the realtime WebSocket client of
`src/frontend/src/utils/websocket.ts` (class `WebSocketClient` and the
module-level helper `subscribeToStockPrices`).

Modelling conventions:

* The mutable fields of the class become the record `ClientState`.  The
  transport socket `this.ws` is modelled by `ws : Option ReadyState`
  (`none` = the field is `null`); `readyState` is the abstract transport
  state.
* JavaScript timer handles (`reconnectTimer`, `heartbeatTimer`) are Booleans
  (`true` = the field holds a handle, `false` = `null`).  In addition the
  state carries instrumentation counters `reconnectPendingCount` /
  `heartbeatPendingCount` counting the timers actually pending in the host
  event loop: every `setTimeout`/`setInterval` call increments the counter,
  every `clearTimeout`/`clearInterval`/timeout-expiry decrements it.  The
  timer-uniqueness claim is about these counters, so it is not true by type.
* Wall-clock time is `now : Nat`; `reconnectDue`/`heartbeatDue` record the
  earliest instant at which the corresponding pending timer may fire
  (`setTimeout(f, d)` / `setInterval(f, d)` fire no earlier than `now + d`).
* Handlers are opaque references modelled as `Nat` identifiers; whether a
  given handler throws when invoked is an environment `hb : Nat → Bool`
  passed to the step function.  The `Map<string, Set<handler>>` registry is
  an insertion-ordered association list whose values are duplicate-free
  lists (JavaScript `Set` iteration order is insertion order and `add` of a
  present element is a no-op).
* `JSON.parse` of an inbound frame is modelled by its outcome: an event
  carries `Option Msg`, `none` meaning the parse threw.
* Whether `this.ws.send` throws is the Boolean `thr` carried by the event.
* Observable effects (configured callbacks, console logging, frames written
  to the socket, promise resolution, timer scheduling, handler invocation)
  are collected in a list of `Output`s.
-/

namespace WS

/-- Transport readiness, mirroring `WebSocket.CONNECTING/OPEN/CLOSING/CLOSED`
(`opened` stands for `OPEN`; `open` is a Lean keyword). -/
inductive ReadyState
  | connecting
  | opened
  | closing
  | closed
deriving DecidableEq, Repr

/-- Inbound typed message: `WebSocketMessage` has a `type` tag and a `data`
payload (payloads are opaque, identified by a `Nat`). -/
structure Msg where
  type : String
  data : Nat
deriving DecidableEq, Repr

/-- Arguments passed to `send` by the code under verification: the heartbeat
probe `{ type: 'ping', timestamp: Date.now() }` and the subscription control
messages `{ type: 'subscribe' | 'unsubscribe', data: { stockCodes } }`.
Serialization (`JSON.stringify`) is injective on these, so the frame written
to the socket is identified with the argument itself. -/
inductive SendArg
  | pingMsg (timestamp : Nat)
  | subMsg (stockCodes : List String)
  | unsubMsg (stockCodes : List String)
deriving DecidableEq, Repr

/-- Observable effects of a step. -/
inductive Output
  | cbOpen
  | cbClose
  | cbError
  | cbMessage (m : Msg)
  | resolved
  | rejected
  | scheduledReconnect
  | sent (d : SendArg)
  | warnedNotConnected
  | sendErrorLogged
  | parseErrorLogged
  | invokedHandler (h : Nat) (d : Nat)
  | handlerErrorLogged (h : Nat)
deriving DecidableEq, Repr

/-- Configuration (`Required<WebSocketOptions>`, numeric part). -/
structure Options where
  reconnectAttempts : Nat
  reconnectInterval : Nat
  heartbeatInterval : Nat
deriving DecidableEq, Repr

/-- Defaults merged in the constructor: 5 attempts, 3000 ms reconnect
interval, 30000 ms heartbeat interval. -/
def defaultOptions : Options := ⟨5, 3000, 30000⟩

/-- The mutable state of a `WebSocketClient` instance (plus the clock and the
timer-count instrumentation described in the header). -/
structure ClientState where
  ws : Option ReadyState
  eventHandlers : List (String × List Nat)
  reconnectTimer : Bool
  reconnectPendingCount : Nat
  reconnectDue : Nat
  heartbeatTimer : Bool
  heartbeatPendingCount : Nat
  heartbeatDue : Nat
  currentReconnectAttempts : Nat
  isManualClose : Bool
  now : Nat
deriving DecidableEq, Repr

/-- Field initializers of the class: `ws = null`, empty registry, no timers,
zero attempts, `isManualClose = false`. -/
def ClientState.init : ClientState :=
  ⟨none, [], false, 0, 0, false, 0, 0, 0, false, 0⟩

/-- `isConnected()`: `this.ws?.readyState === WebSocket.OPEN`. -/
def isConnected (s : ClientState) : Bool :=
  match s.ws with
  | some ReadyState.opened => true
  | _ => false

/-- `Set.add`: insert at the end unless already present. -/
def setAdd (l : List Nat) (h : Nat) : List Nat :=
  if h ∈ l then l else l ++ [h]

/-- Registry update performed by `subscribe`: ensure an entry for the type
exists, then `Set.add` the handler (lines 112-116). -/
def subscribeReg (m : List (String × List Nat)) (t : String) (h : Nat) :
    List (String × List Nat) :=
  match m with
  | [] => [(t, [h])]
  | (k, v) :: rest =>
    if k = t then (k, setAdd v h) :: rest else (k, v) :: subscribeReg rest t h

/-- Registry update performed by the closure returned from `subscribe`:
`Set.delete` the handler and drop the type entry when it becomes empty
(lines 119-127). -/
def unsubscribeReg (m : List (String × List Nat)) (t : String) (h : Nat) :
    List (String × List Nat) :=
  match m with
  | [] => []
  | (k, v) :: rest =>
    if k = t then
      if v.erase h = [] then rest else (k, v.erase h) :: rest
    else (k, v) :: unsubscribeReg rest t h

/-- `map.get(t)` on a handler registry, defaulting to no handlers. -/
def regHandlers (m : List (String × List Nat)) (t : String) : List Nat :=
  match m.lookup t with
  | some v => v
  | none => []

/-- `this.eventHandlers.get(t)`, defaulting to no handlers. -/
def handlersFor (s : ClientState) (t : String) : List Nat :=
  regHandlers s.eventHandlers t

/-- `send(data)` (lines 96-109): warn and return `false` when not connected;
otherwise `JSON.stringify` + `ws.send` inside try/catch, returning `true` on
success and `false` (after logging) when the transport `send` throws
(`thr`).  It never touches the client state and never queues. -/
def send (s : ClientState) (d : SendArg) (thr : Bool) : Bool × List Output :=
  if isConnected s then
    if thr then (false, [Output.sendErrorLogged])
    else (true, [Output.sent d])
  else (false, [Output.warnedNotConnected])

/-- `stopHeartbeat()` (lines 187-192): if the handle is non-null,
`clearInterval` (one fewer pending interval) and null the handle. -/
def stopHeartbeat (s : ClientState) : ClientState :=
  if s.heartbeatTimer then
    { s with heartbeatTimer := false,
             heartbeatPendingCount := s.heartbeatPendingCount - 1 }
  else s

/-- `startHeartbeat()` (lines 177-185): `stopHeartbeat` first, then
`setInterval(..., heartbeatInterval)` — one more pending interval, handle
stored, first fire due no earlier than `now + heartbeatInterval`. -/
def startHeartbeat (opts : Options) (s : ClientState) : ClientState :=
  let s1 := stopHeartbeat s
  { s1 with heartbeatTimer := true,
            heartbeatPendingCount := s1.heartbeatPendingCount + 1,
            heartbeatDue := s1.now + opts.heartbeatInterval }

/-- `shouldReconnect()` (lines 150-152). -/
def shouldReconnect (opts : Options) (s : ClientState) : Bool :=
  s.currentReconnectAttempts < opts.reconnectAttempts

/-- `scheduleReconnect()` (lines 154-168): bail out if a handle is already
stored; otherwise increment the attempt counter and `setTimeout` the
reconnect (one more pending timeout, due `now + reconnectInterval`). -/
def scheduleReconnect (opts : Options) (s : ClientState) :
    ClientState × List Output :=
  if s.reconnectTimer then (s, [])
  else
    ({ s with currentReconnectAttempts := s.currentReconnectAttempts + 1,
              reconnectTimer := true,
              reconnectPendingCount := s.reconnectPendingCount + 1,
              reconnectDue := s.now + opts.reconnectInterval },
     [Output.scheduledReconnect])

/-- `clearReconnectTimer()` (lines 170-175). -/
def clearReconnectTimer (s : ClientState) : ClientState :=
  if s.reconnectTimer then
    { s with reconnectTimer := false,
             reconnectPendingCount := s.reconnectPendingCount - 1 }
  else s

/-- `connect()` body up to attaching the socket callbacks (line 44):
`this.ws = new WebSocket(this.url)` — a fresh socket in `CONNECTING` state.
Flags, counters and timers are untouched. -/
def connectCall (s : ClientState) : ClientState :=
  { s with ws := some ReadyState.connecting }

/-- `disconnect()` (lines 85-94): set the manual-close flag, cancel a pending
reconnect timeout, stop the heartbeat, close and null the socket. -/
def disconnect (s : ClientState) : ClientState :=
  let s1 := stopHeartbeat (clearReconnectTimer { s with isManualClose := true })
  { s1 with ws := none }

/-- One handler invocation inside `handleMessage`'s `forEach`: the invocation
is observable, and a throwing handler is caught per-handler and logged
(lines 140-146). -/
def invokeOne (hb : Nat → Bool) (h : Nat) (d : Nat) : List Output :=
  if hb h then [Output.invokedHandler h d, Output.handlerErrorLogged h]
  else [Output.invokedHandler h d]

/-- The `forEach` over the handler set of the message's type: every handler
is invoked in registration order, in the same event-loop turn. -/
def dispatchHandlers (hb : Nat → Bool) (hs : List Nat) (d : Nat) :
    List Output :=
  match hs with
  | [] => []
  | h :: rest => invokeOne hb h d ++ dispatchHandlers hb rest d

/-- `handleMessage(message)` (lines 134-148): generic `onMessage` callback
with the full message first, then the per-type handlers with only
`message.data`.  The client state is not modified. -/
def handleMessage (hb : Nat → Bool) (s : ClientState) (m : Msg) : List Output :=
  Output.cbMessage m :: dispatchHandlers hb (handlersFor s m.type) m.data

/-- `ws.onopen` (lines 46-53), fired by the transport when the handshake
completes (a socket only fires `open` from the `CONNECTING` state): reset the
attempt counter, clear the manual-close flag, start the heartbeat, invoke the
open callback, resolve the pending `connect()` promise. -/
def stepOpen (opts : Options) (s : ClientState) : ClientState × List Output :=
  if s.ws = some ReadyState.connecting then
    (startHeartbeat opts
       { s with ws := some ReadyState.opened,
                currentReconnectAttempts := 0,
                isManualClose := false },
     [Output.cbOpen, Output.resolved])
  else (s, [])

/-- `ws.onclose` (lines 55-63) first half: the socket transitions to
`CLOSED` (a socket already detached by `disconnect` leaves `this.ws` as
`null`) and the heartbeat is stopped. -/
def closedState (s : ClientState) : ClientState :=
  stopHeartbeat { s with ws := s.ws.map (fun _ => ReadyState.closed) }

/-- The guarded tail of `ws.onclose`. -/
def stepClose (opts : Options) (s : ClientState) : ClientState × List Output :=
  if !(closedState s).isManualClose && shouldReconnect opts (closedState s) then
    ((scheduleReconnect opts (closedState s)).1,
     Output.cbClose :: (scheduleReconnect opts (closedState s)).2)
  else (closedState s, [Output.cbClose])

/-- `ws.onerror` (lines 65-69): log, invoke the error callback, reject the
pending promise.  No reconnect logic runs here. -/
def stepError (s : ClientState) : ClientState × List Output :=
  (s, [Output.cbError, Output.rejected])

/-- `ws.onmessage` (lines 71-78): `p` is the outcome of `JSON.parse` on the
raw frame; a parse failure is caught and logged, the message discarded. -/
def stepMessage (hb : Nat → Bool) (s : ClientState) (p : Option Msg) :
    ClientState × List Output :=
  match p with
  | none => (s, [Output.parseErrorLogged])
  | some m => (s, handleMessage hb s m)

/-- Expiry of the reconnect timeout (lines 162-167): requires a pending
timeout whose due time has been reached; the callback nulls the handle and
calls `connect()` (whose own failure is swallowed by `.catch`). -/
def fireReconnect (s : ClientState) : ClientState × List Output :=
  if s.reconnectPendingCount ≠ 0 ∧ s.reconnectDue ≤ s.now then
    (connectCall { s with reconnectTimer := false,
                          reconnectPendingCount := s.reconnectPendingCount - 1 },
     [])
  else (s, [])

/-- A tick of the heartbeat interval (lines 180-184): the interval stays
pending with the next tick one full interval away; the callback sends the
probe only when connected, else silently skips (requires a live interval
whose due time has been reached). -/
def heartbeatTick (opts : Options) (s : ClientState) : ClientState :=
  { s with heartbeatDue := s.now + opts.heartbeatInterval }

/-- The interval callback itself. -/
def fireHeartbeat (opts : Options) (s : ClientState) (thr : Bool) :
    ClientState × List Output :=
  if s.heartbeatPendingCount ≠ 0 ∧ s.heartbeatDue ≤ s.now then
    if isConnected (heartbeatTick opts s) then
      (heartbeatTick opts s,
       (send (heartbeatTick opts s) (SendArg.pingMsg (heartbeatTick opts s).now) thr).2)
    else (heartbeatTick opts s, [])
  else (s, [])

/-- Events a client instance can experience: transport callbacks, timer
expiries, public API calls, and the passage of time. -/
inductive Event
  | transportOpen
  | transportClose
  | transportError
  | transportMessage (p : Option Msg)
  | fireReconnect
  | fireHeartbeat (thr : Bool)
  | callConnect
  | callDisconnect
  | callSend (d : SendArg) (thr : Bool)
  | callSubscribe (t : String) (h : Nat)
  | callUnsubscribe (t : String) (h : Nat)
  | advance (d : Nat)
deriving DecidableEq, Repr

/-- Discriminator for the public `send` API events. -/
def Event.isCallSend : Event → Bool
  | .callSend _ _ => true
  | _ => false

/-- One step of the client: dispatch an event to the corresponding handler
body of the source, returning the next state and the observable outputs. -/
def step (opts : Options) (hb : Nat → Bool) (s : ClientState) :
    Event → ClientState × List Output
  | .transportOpen => stepOpen opts s
  | .transportClose => stepClose opts s
  | .transportError => stepError s
  | .transportMessage p => stepMessage hb s p
  | .fireReconnect => fireReconnect s
  | .fireHeartbeat thr => fireHeartbeat opts s thr
  | .callConnect => (connectCall s, [])
  | .callDisconnect => (disconnect s, [])
  | .callSend d thr => (s, (send s d thr).2)
  | .callSubscribe t h =>
    ({ s with eventHandlers := subscribeReg s.eventHandlers t h }, [])
  | .callUnsubscribe t h =>
    ({ s with eventHandlers := unsubscribeReg s.eventHandlers t h }, [])
  | .advance d => ({ s with now := s.now + d }, [])

/-- Run a sequence of events, concatenating the outputs. -/
def run (opts : Options) (hb : Nat → Bool) :
    ClientState → List Event → ClientState × List Output
  | s, [] => (s, [])
  | s, e :: es =>
    ((run opts hb (step opts hb s e).1 es).1,
     (step opts hb s e).2 ++ (run opts hb (step opts hb s e).1 es).2)

/-- States reachable from a freshly constructed client. -/
inductive Reachable (opts : Options) (hb : Nat → Bool) : ClientState → Prop
  | init : Reachable opts hb ClientState.init
  | next {s : ClientState} (e : Event) :
      Reachable opts hb s → Reachable opts hb (step opts hb s e).1

/-- `subscribeToStockPrices(stockCodes, handler)` (lines 206-221): register
under `"price_update"`, then send the subscribe control message only if
connected right now. -/
def stockSubState (h : Nat) (s : ClientState) : ClientState :=
  { s with eventHandlers := subscribeReg s.eventHandlers "price_update" h }

/-- The call itself. -/
def subscribeToStockPrices (codes : List String) (h : Nat) (thr : Bool)
    (s : ClientState) : ClientState × List Output :=
  if isConnected (stockSubState h s) then
    (stockSubState h s, (send (stockSubState h s) (SendArg.subMsg codes) thr).2)
  else (stockSubState h s, [])

/-- The cleanup closure returned by `subscribeToStockPrices` (lines 223-232):
unsubscribe, then send the unsubscribe control message only if connected at
cleanup time. -/
def stockUnsubState (h : Nat) (s : ClientState) : ClientState :=
  { s with eventHandlers := unsubscribeReg s.eventHandlers "price_update" h }

/-- The cleanup call itself. -/
def stockPriceCleanup (codes : List String) (h : Nat) (thr : Bool)
    (s : ClientState) : ClientState × List Output :=
  if isConnected (stockUnsubState h s) then
    (stockUnsubState h s,
     (send (stockUnsubState h s) (SendArg.unsubMsg codes) thr).2)
  else (stockUnsubState h s, [])

/-- Number of occurrences of an output in an output trace. -/
def countOut (o : Output) : List Output → Nat
  | [] => 0
  | x :: rest => (if x = o then 1 else 0) + countOut o rest

/-- Timer-count instrumentation invariant: the pending count of each timer
kind is 1 exactly when the corresponding handle is stored, 0 otherwise. -/
def timersOK (s : ClientState) : Prop :=
  s.reconnectPendingCount = (if s.reconnectTimer then 1 else 0) ∧
  s.heartbeatPendingCount = (if s.heartbeatTimer then 1 else 0)

/-! ### Field-preservation lemmas for the primitive operations -/

@[simp] theorem stopHeartbeat_ws (s : ClientState) : (stopHeartbeat s).ws = s.ws := by
  unfold stopHeartbeat; split <;> rfl

@[simp] theorem stopHeartbeat_eventHandlers (s : ClientState) :
    (stopHeartbeat s).eventHandlers = s.eventHandlers := by
  unfold stopHeartbeat; split <;> rfl

@[simp] theorem stopHeartbeat_reconnectTimer (s : ClientState) :
    (stopHeartbeat s).reconnectTimer = s.reconnectTimer := by
  unfold stopHeartbeat; split <;> rfl

@[simp] theorem stopHeartbeat_reconnectPendingCount (s : ClientState) :
    (stopHeartbeat s).reconnectPendingCount = s.reconnectPendingCount := by
  unfold stopHeartbeat; split <;> rfl

@[simp] theorem stopHeartbeat_reconnectDue (s : ClientState) :
    (stopHeartbeat s).reconnectDue = s.reconnectDue := by
  unfold stopHeartbeat; split <;> rfl

@[simp] theorem stopHeartbeat_currentReconnectAttempts (s : ClientState) :
    (stopHeartbeat s).currentReconnectAttempts = s.currentReconnectAttempts := by
  unfold stopHeartbeat; split <;> rfl

@[simp] theorem stopHeartbeat_isManualClose (s : ClientState) :
    (stopHeartbeat s).isManualClose = s.isManualClose := by
  unfold stopHeartbeat; split <;> rfl

@[simp] theorem stopHeartbeat_now (s : ClientState) : (stopHeartbeat s).now = s.now := by
  unfold stopHeartbeat; split <;> rfl

@[simp] theorem stopHeartbeat_heartbeatTimer (s : ClientState) :
    (stopHeartbeat s).heartbeatTimer = false := by
  unfold stopHeartbeat; split <;> simp_all

@[simp] theorem clearReconnectTimer_ws (s : ClientState) :
    (clearReconnectTimer s).ws = s.ws := by
  unfold clearReconnectTimer; split <;> rfl

@[simp] theorem clearReconnectTimer_eventHandlers (s : ClientState) :
    (clearReconnectTimer s).eventHandlers = s.eventHandlers := by
  unfold clearReconnectTimer; split <;> rfl

@[simp] theorem clearReconnectTimer_heartbeatTimer (s : ClientState) :
    (clearReconnectTimer s).heartbeatTimer = s.heartbeatTimer := by
  unfold clearReconnectTimer; split <;> rfl

@[simp] theorem clearReconnectTimer_heartbeatPendingCount (s : ClientState) :
    (clearReconnectTimer s).heartbeatPendingCount = s.heartbeatPendingCount := by
  unfold clearReconnectTimer; split <;> rfl

@[simp] theorem clearReconnectTimer_heartbeatDue (s : ClientState) :
    (clearReconnectTimer s).heartbeatDue = s.heartbeatDue := by
  unfold clearReconnectTimer; split <;> rfl

@[simp] theorem clearReconnectTimer_currentReconnectAttempts (s : ClientState) :
    (clearReconnectTimer s).currentReconnectAttempts = s.currentReconnectAttempts := by
  unfold clearReconnectTimer; split <;> rfl

@[simp] theorem clearReconnectTimer_isManualClose (s : ClientState) :
    (clearReconnectTimer s).isManualClose = s.isManualClose := by
  unfold clearReconnectTimer; split <;> rfl

@[simp] theorem clearReconnectTimer_now (s : ClientState) :
    (clearReconnectTimer s).now = s.now := by
  unfold clearReconnectTimer; split <;> rfl

@[simp] theorem startHeartbeat_ws (opts : Options) (s : ClientState) :
    (startHeartbeat opts s).ws = s.ws := by
  simp [startHeartbeat]

@[simp] theorem startHeartbeat_eventHandlers (opts : Options) (s : ClientState) :
    (startHeartbeat opts s).eventHandlers = s.eventHandlers := by
  simp [startHeartbeat]

@[simp] theorem startHeartbeat_reconnectTimer (opts : Options) (s : ClientState) :
    (startHeartbeat opts s).reconnectTimer = s.reconnectTimer := by
  simp [startHeartbeat]

@[simp] theorem startHeartbeat_reconnectPendingCount (opts : Options) (s : ClientState) :
    (startHeartbeat opts s).reconnectPendingCount = s.reconnectPendingCount := by
  simp [startHeartbeat]

@[simp] theorem startHeartbeat_reconnectDue (opts : Options) (s : ClientState) :
    (startHeartbeat opts s).reconnectDue = s.reconnectDue := by
  simp [startHeartbeat]

@[simp] theorem startHeartbeat_currentReconnectAttempts (opts : Options) (s : ClientState) :
    (startHeartbeat opts s).currentReconnectAttempts = s.currentReconnectAttempts := by
  simp [startHeartbeat]

@[simp] theorem startHeartbeat_isManualClose (opts : Options) (s : ClientState) :
    (startHeartbeat opts s).isManualClose = s.isManualClose := by
  simp [startHeartbeat]

@[simp] theorem startHeartbeat_now (opts : Options) (s : ClientState) :
    (startHeartbeat opts s).now = s.now := by
  simp [startHeartbeat]

@[simp] theorem startHeartbeat_heartbeatTimer (opts : Options) (s : ClientState) :
    (startHeartbeat opts s).heartbeatTimer = true := by
  simp [startHeartbeat]

@[simp] theorem startHeartbeat_heartbeatDue (opts : Options) (s : ClientState) :
    (startHeartbeat opts s).heartbeatDue = s.now + opts.heartbeatInterval := by
  simp [startHeartbeat]

@[simp] theorem isConnected_connecting (s : ClientState)
    (h : s.ws = some ReadyState.connecting) : isConnected s = false := by
  simp [isConnected, h]

@[simp] theorem closedState_eventHandlers (s : ClientState) :
    (closedState s).eventHandlers = s.eventHandlers := by
  simp [closedState]

@[simp] theorem closedState_reconnectTimer (s : ClientState) :
    (closedState s).reconnectTimer = s.reconnectTimer := by
  simp [closedState]

@[simp] theorem closedState_reconnectPendingCount (s : ClientState) :
    (closedState s).reconnectPendingCount = s.reconnectPendingCount := by
  simp [closedState]

@[simp] theorem closedState_reconnectDue (s : ClientState) :
    (closedState s).reconnectDue = s.reconnectDue := by
  simp [closedState]

@[simp] theorem closedState_currentReconnectAttempts (s : ClientState) :
    (closedState s).currentReconnectAttempts = s.currentReconnectAttempts := by
  simp [closedState]

@[simp] theorem closedState_isManualClose (s : ClientState) :
    (closedState s).isManualClose = s.isManualClose := by
  simp [closedState]

@[simp] theorem closedState_now (s : ClientState) : (closedState s).now = s.now := by
  simp [closedState]

@[simp] theorem closedState_not_connected (s : ClientState) :
    isConnected (closedState s) = false := by
  unfold isConnected closedState
  rw [stopHeartbeat_ws]
  cases s.ws <;> simp

@[simp] theorem heartbeatTick_ws (opts : Options) (s : ClientState) :
    (heartbeatTick opts s).ws = s.ws := rfl

@[simp] theorem heartbeatTick_eventHandlers (opts : Options) (s : ClientState) :
    (heartbeatTick opts s).eventHandlers = s.eventHandlers := rfl

@[simp] theorem heartbeatTick_reconnectTimer (opts : Options) (s : ClientState) :
    (heartbeatTick opts s).reconnectTimer = s.reconnectTimer := rfl

@[simp] theorem heartbeatTick_reconnectPendingCount (opts : Options) (s : ClientState) :
    (heartbeatTick opts s).reconnectPendingCount = s.reconnectPendingCount := rfl

@[simp] theorem heartbeatTick_reconnectDue (opts : Options) (s : ClientState) :
    (heartbeatTick opts s).reconnectDue = s.reconnectDue := rfl

@[simp] theorem heartbeatTick_heartbeatTimer (opts : Options) (s : ClientState) :
    (heartbeatTick opts s).heartbeatTimer = s.heartbeatTimer := rfl

@[simp] theorem heartbeatTick_heartbeatPendingCount (opts : Options) (s : ClientState) :
    (heartbeatTick opts s).heartbeatPendingCount = s.heartbeatPendingCount := rfl

@[simp] theorem heartbeatTick_currentReconnectAttempts (opts : Options) (s : ClientState) :
    (heartbeatTick opts s).currentReconnectAttempts = s.currentReconnectAttempts := rfl

@[simp] theorem heartbeatTick_isManualClose (opts : Options) (s : ClientState) :
    (heartbeatTick opts s).isManualClose = s.isManualClose := rfl

@[simp] theorem heartbeatTick_now (opts : Options) (s : ClientState) :
    (heartbeatTick opts s).now = s.now := rfl

@[simp] theorem heartbeatTick_heartbeatDue (opts : Options) (s : ClientState) :
    (heartbeatTick opts s).heartbeatDue = s.now + opts.heartbeatInterval := rfl

@[simp] theorem isConnected_heartbeatTick (opts : Options) (s : ClientState) :
    isConnected (heartbeatTick opts s) = isConnected s := by
  unfold isConnected heartbeatTick
  rfl

@[simp] theorem closedState_ws (s : ClientState) :
    (closedState s).ws = s.ws.map (fun _ => ReadyState.closed) := by
  simp [closedState]

@[simp] theorem scheduleReconnect_fst_ws (opts : Options) (s : ClientState) :
    (scheduleReconnect opts s).1.ws = s.ws := by
  unfold scheduleReconnect; split <;> rfl

@[simp] theorem scheduleReconnect_fst_eventHandlers (opts : Options) (s : ClientState) :
    (scheduleReconnect opts s).1.eventHandlers = s.eventHandlers := by
  unfold scheduleReconnect; split <;> rfl

@[simp] theorem scheduleReconnect_fst_heartbeatTimer (opts : Options) (s : ClientState) :
    (scheduleReconnect opts s).1.heartbeatTimer = s.heartbeatTimer := by
  unfold scheduleReconnect; split <;> rfl

@[simp] theorem scheduleReconnect_fst_heartbeatPendingCount (opts : Options) (s : ClientState) :
    (scheduleReconnect opts s).1.heartbeatPendingCount = s.heartbeatPendingCount := by
  unfold scheduleReconnect; split <;> rfl

@[simp] theorem scheduleReconnect_fst_heartbeatDue (opts : Options) (s : ClientState) :
    (scheduleReconnect opts s).1.heartbeatDue = s.heartbeatDue := by
  unfold scheduleReconnect; split <;> rfl

@[simp] theorem scheduleReconnect_fst_isManualClose (opts : Options) (s : ClientState) :
    (scheduleReconnect opts s).1.isManualClose = s.isManualClose := by
  unfold scheduleReconnect; split <;> rfl

@[simp] theorem scheduleReconnect_fst_now (opts : Options) (s : ClientState) :
    (scheduleReconnect opts s).1.now = s.now := by
  unfold scheduleReconnect; split <;> rfl

/-! ### Dispatch helper lemmas -/

theorem invokedHandler_mem_dispatch (hb : Nat → Bool) (hs : List Nat) (d h : Nat)
    (hmem : h ∈ hs) : Output.invokedHandler h d ∈ dispatchHandlers hb hs d := by
  induction hs with
  | nil => cases hmem
  | cons x rest ih =>
    rcases List.mem_cons.mp hmem with h1 | h2
    · subst h1
      unfold dispatchHandlers invokeOne
      cases hb h <;> simp
    · unfold dispatchHandlers
      exact List.mem_append_right _ (ih h2)

/-- C2: on the transport open event the client zeroes the reconnect attempt
counter, clears the manual-close flag, starts the heartbeat timer (first tick
due one full interval later), and emits exactly the open callback followed by
the resolution of the pending `connect()` promise — on every successful
open. -/
theorem C2_open_resets_state_and_notifies (opts : Options) (hb : Nat → Bool)
    (s : ClientState) (hws : s.ws = some ReadyState.connecting) :
    (step opts hb s Event.transportOpen).1.currentReconnectAttempts = 0 ∧
    (step opts hb s Event.transportOpen).1.isManualClose = false ∧
    (step opts hb s Event.transportOpen).1.heartbeatTimer = true ∧
    (step opts hb s Event.transportOpen).1.heartbeatDue =
      s.now + opts.heartbeatInterval ∧
    (step opts hb s Event.transportOpen).1.ws = some ReadyState.opened ∧
    (step opts hb s Event.transportOpen).2 = [Output.cbOpen, Output.resolved] := by
  simp [step, stepOpen, hws]

theorem C2_open_resets_state_and_notifies_witness :
    (step defaultOptions (fun _ => false) (connectCall ClientState.init)
      Event.transportOpen).2 = [Output.cbOpen, Output.resolved] :=
  (C2_open_resets_state_and_notifies defaultOptions (fun _ => false)
    (connectCall ClientState.init) rfl).2.2.2.2.2

/-- C6: `send` leaves the client state untouched (nothing is queued), returns
`true` exactly when the connection is open and the transport send does not
throw, warns and returns `false` when not connected, and a frame is written
to the socket only when the connection is open and the write succeeded — and
then the frame is the serialized payload itself. -/
theorem C6_send_at_most_once (opts : Options) (hb : Nat → Bool) (s : ClientState)
    (d : SendArg) (thr : Bool) :
    (step opts hb s (Event.callSend d thr)).1 = s ∧
    (send s d thr).1 = (isConnected s && !thr) ∧
    (isConnected s = false → (send s d thr).2 = [Output.warnedNotConnected]) ∧
    (∀ d', Output.sent d' ∈ (send s d thr).2 →
      isConnected s = true ∧ thr = false ∧ d' = d) := by
  refine ⟨rfl, ?_, ?_, ?_⟩ <;>
    unfold send <;> cases hc : isConnected s <;> cases thr <;> simp [hc]

theorem C6_send_at_most_once_witness :
    (send ClientState.init (SendArg.pingMsg 0) false).2 =
      [Output.warnedNotConnected] :=
  ((C6_send_at_most_once defaultOptions (fun _ => false) ClientState.init
    (SendArg.pingMsg 0) false).2.2.1) rfl

/-- C7: a raw frame that fails to parse is caught and logged only: the state
is unchanged (attempt counter included), no handler runs, no generic message
callback runs, and no reconnect is scheduled. -/
theorem C7_parse_failure_is_inert (opts : Options) (hb : Nat → Bool)
    (s : ClientState) :
    (step opts hb s (Event.transportMessage none)).1 = s ∧
    (step opts hb s (Event.transportMessage none)).2 = [Output.parseErrorLogged] ∧
    (∀ h d, Output.invokedHandler h d ∉
      (step opts hb s (Event.transportMessage none)).2) ∧
    (∀ m, Output.cbMessage m ∉ (step opts hb s (Event.transportMessage none)).2) ∧
    Output.scheduledReconnect ∉ (step opts hb s (Event.transportMessage none)).2 ∧
    (step opts hb s (Event.transportMessage none)).1.currentReconnectAttempts =
      s.currentReconnectAttempts := by
  simp [step, stepMessage]

/-- C8: a successfully parsed message first reaches the generic message
callback with the full message, then every handler registered under its type
tag with only the payload; a throwing handler is caught per-handler, so every
registered handler is invoked no matter which handlers throw. -/
theorem C8_per_handler_isolation (opts : Options) (hb : Nat → Bool)
    (s : ClientState) (m : Msg) :
    (step opts hb s (Event.transportMessage (some m))).1 = s ∧
    (step opts hb s (Event.transportMessage (some m))).2 =
      Output.cbMessage m :: dispatchHandlers hb (handlersFor s m.type) m.data ∧
    (∀ h, h ∈ handlersFor s m.type →
      Output.invokedHandler h m.data ∈
        (step opts hb s (Event.transportMessage (some m))).2) := by
  refine ⟨rfl, rfl, ?_⟩
  intro h hmem
  exact List.mem_cons_of_mem _ (invokedHandler_mem_dispatch hb _ m.data h hmem)

theorem C8_per_handler_isolation_witness :
    Output.invokedHandler 9 5 ∈
      (step defaultOptions (fun h => decide (h = 3))
        (run defaultOptions (fun h => decide (h = 3)) ClientState.init
          [Event.callSubscribe "price_update" 3,
           Event.callSubscribe "price_update" 9]).1
        (Event.transportMessage (some (Msg.mk "price_update" 5)))).2 :=
  (C8_per_handler_isolation defaultOptions (fun h => decide (h = 3))
    (run defaultOptions (fun h => decide (h = 3)) ClientState.init
      [Event.callSubscribe "price_update" 3,
       Event.callSubscribe "price_update" 9]).1
    (Msg.mk "price_update" 5)).2.2 9 (by decide)

/-! ### Classification of step outputs -/

theorem dispatch_outputs (hb : Nat → Bool) (hs : List Nat) (d : Nat) (o : Output)
    (ho : o ∈ dispatchHandlers hb hs d) :
    (∃ h, o = Output.invokedHandler h d) ∨ (∃ h, o = Output.handlerErrorLogged h) := by
  induction hs with
  | nil => cases ho
  | cons x rest ih =>
    unfold dispatchHandlers at ho
    rcases List.mem_append.mp ho with h1 | h2
    · unfold invokeOne at h1
      cases hx : hb x <;> simp [hx] at h1 <;> tauto
    · exact ih h2

theorem send_outputs (s : ClientState) (d : SendArg) (thr : Bool) (o : Output)
    (ho : o ∈ (send s d thr).2) :
    o = Output.sent d ∨ o = Output.sendErrorLogged ∨ o = Output.warnedNotConnected := by
  unfold send at ho
  split at ho
  · split at ho <;> simp at ho <;> tauto
  · simp at ho; tauto

theorem handleMessage_outputs (hb : Nat → Bool) (s : ClientState) (m : Msg)
    (o : Output) (ho : o ∈ handleMessage hb s m) :
    o = Output.cbMessage m ∨ (∃ h, o = Output.invokedHandler h m.data) ∨
      (∃ h, o = Output.handlerErrorLogged h) := by
  unfold handleMessage at ho
  rcases List.mem_cons.mp ho with h1 | h2
  · exact Or.inl h1
  · exact Or.inr (dispatch_outputs hb _ m.data o h2)

theorem isConnected_false_iff (s : ClientState) :
    isConnected s = false ↔ s.ws ≠ some ReadyState.opened := by
  unfold isConnected
  cases hw : s.ws with
  | none => simp
  | some r => cases r <;> simp

/-- A reconnect is scheduled only by a transport close event, and only when
the manual-close flag is clear and the attempt counter is below the
configured maximum. -/
theorem scheduled_mem_step (opts : Options) (hb : Nat → Bool) (s : ClientState)
    (e : Event) (hmem : Output.scheduledReconnect ∈ (step opts hb s e).2) :
    e = Event.transportClose ∧ s.isManualClose = false ∧
      s.currentReconnectAttempts < opts.reconnectAttempts := by
  cases e with
  | transportOpen =>
    simp only [step] at hmem
    unfold stepOpen at hmem
    split at hmem <;> simp at hmem
  | transportClose =>
    refine ⟨rfl, ?_⟩
    simp only [step] at hmem
    unfold stepClose at hmem
    split at hmem
    · next hcond =>
      rw [Bool.and_eq_true, Bool.not_eq_true'] at hcond
      constructor
      · simpa using hcond.1
      · have := hcond.2
        unfold shouldReconnect at this
        simpa using this
    · simp at hmem
  | transportError => simp [step, stepError] at hmem
  | transportMessage p =>
    cases p with
    | none => simp [step, stepMessage] at hmem
    | some m =>
      have := handleMessage_outputs hb s m Output.scheduledReconnect
        (by simpa [step, stepMessage] using hmem)
      rcases this with h | ⟨h, hh⟩ | ⟨h, hh⟩ <;> simp_all
  | fireReconnect =>
    simp only [step] at hmem
    unfold fireReconnect at hmem
    split at hmem <;> simp at hmem
  | fireHeartbeat thr =>
    simp only [step] at hmem
    unfold fireHeartbeat at hmem
    split at hmem
    · split at hmem
      · have := send_outputs _ _ thr Output.scheduledReconnect hmem
        simp at this
      · simp at hmem
    · simp at hmem
  | callConnect => simp [step] at hmem
  | callDisconnect => simp [step] at hmem
  | callSend d thr =>
    have := send_outputs s d thr Output.scheduledReconnect
      (by simpa [step] using hmem)
    simp at this
  | callSubscribe t h => simp [step] at hmem
  | callUnsubscribe t h => simp [step] at hmem
  | advance d => simp [step] at hmem

/-! ### Step-preservation lemmas -/

theorem step_counter_nondecreasing (opts : Options) (hb : Nat → Bool)
    (s : ClientState) (e : Event) (hne : e ≠ Event.transportOpen) :
    s.currentReconnectAttempts ≤ (step opts hb s e).1.currentReconnectAttempts := by
  cases e with
  | transportOpen => exact absurd rfl hne
  | transportClose =>
    simp only [step]
    unfold stepClose
    split
    · unfold scheduleReconnect
      split <;> simp
    · simp
  | transportError => simp [step, stepError]
  | transportMessage p => cases p <;> simp [step, stepMessage]
  | fireReconnect =>
    simp only [step]
    unfold fireReconnect
    split <;> simp [connectCall]
  | fireHeartbeat thr =>
    simp only [step]
    unfold fireHeartbeat
    split
    · split <;> simp
    · simp
  | callConnect => simp [step, connectCall]
  | callDisconnect => simp [step, disconnect]
  | callSend d thr => simp [step]
  | callSubscribe t h => simp [step]
  | callUnsubscribe t h => simp [step]
  | advance d => simp [step]

theorem step_preserves_disconnected (opts : Options) (hb : Nat → Bool)
    (s : ClientState) (e : Event) (hc : isConnected s = false)
    (hne : e ≠ Event.transportOpen) :
    isConnected (step opts hb s e).1 = false := by
  rw [isConnected_false_iff] at hc ⊢
  cases e with
  | transportOpen => exact absurd rfl hne
  | transportClose =>
    simp only [step]
    unfold stepClose
    split <;> simp [Option.map_eq_some']
  | transportError => simpa [step, stepError] using hc
  | transportMessage p => cases p <;> simpa [step, stepMessage] using hc
  | fireReconnect =>
    simp only [step]
    unfold fireReconnect
    split <;> simp [connectCall]
    exact hc
  | fireHeartbeat thr =>
    simp only [step]
    unfold fireHeartbeat
    split
    · split <;> simpa using hc
    · simpa using hc
  | callConnect => simp [step, connectCall]
  | callDisconnect => simp [step, disconnect]
  | callSend d thr => simpa [step] using hc
  | callSubscribe t h => simpa [step] using hc
  | callUnsubscribe t h => simpa [step] using hc
  | advance d => simpa [step] using hc

theorem step_preserves_manualClose (opts : Options) (hb : Nat → Bool)
    (s : ClientState) (e : Event) (hm : s.isManualClose = true)
    (hne : e ≠ Event.transportOpen) :
    (step opts hb s e).1.isManualClose = true := by
  cases e with
  | transportOpen => exact absurd rfl hne
  | transportClose =>
    simp only [step]
    unfold stepClose
    split
    · next hcond =>
      rw [Bool.and_eq_true, Bool.not_eq_true'] at hcond
      have := hcond.1
      simp [hm] at this
    · simp [hm]
  | transportError => simpa [step, stepError] using hm
  | transportMessage p => cases p <;> simpa [step, stepMessage] using hm
  | fireReconnect =>
    simp only [step]
    unfold fireReconnect
    split <;> simp [connectCall, hm]
  | fireHeartbeat thr =>
    simp only [step]
    unfold fireHeartbeat
    split
    · split <;> simpa using hm
    · simpa using hm
  | callConnect => simpa [step, connectCall] using hm
  | callDisconnect => simp [step, disconnect]
  | callSend d thr => simpa [step] using hm
  | callSubscribe t h => simpa [step] using hm
  | callUnsubscribe t h => simpa [step] using hm
  | advance d => simpa [step] using hm

/-! ### Reconnect-budget and manual-close trace theorems -/

theorem manualClose_run (opts : Options) (hb : Nat → Bool) :
    ∀ (es : List Event) (s : ClientState), s.isManualClose = true →
      Event.transportOpen ∉ es →
      Output.scheduledReconnect ∉ (run opts hb s es).2 ∧
      (run opts hb s es).1.isManualClose = true := by
  intro es
  induction es with
  | nil =>
    intro s hm _
    exact ⟨by simp [run], by simpa [run] using hm⟩
  | cons e rest ih =>
    intro s hm hno
    have hne : e ≠ Event.transportOpen := fun h => hno (by simp [h])
    have hnr : Event.transportOpen ∉ rest := fun h => hno (List.mem_cons_of_mem _ h)
    have hm' := step_preserves_manualClose opts hb s e hm hne
    have ihr := ih (step opts hb s e).1 hm' hnr
    refine ⟨?_, ihr.2⟩
    intro hmem
    simp only [run] at hmem
    rcases List.mem_append.mp hmem with h1 | h2
    · have hcl := scheduled_mem_step opts hb s e h1
      simp [hm] at hcl
    · exact ihr.1 h2

/-- C1: once the attempt counter has reached the configured maximum, no later
qualifying close event (indeed no later event short of a successful open)
ever schedules another reconnect timer, and the client stays disconnected
for as long as no transport open occurs. -/
theorem C1_max_attempts_halt_reconnection (opts : Options) (hb : Nat → Bool) :
    ∀ (es : List Event) (s : ClientState),
      opts.reconnectAttempts ≤ s.currentReconnectAttempts →
      Event.transportOpen ∉ es →
      Output.scheduledReconnect ∉ (run opts hb s es).2 ∧
      (isConnected s = false → isConnected (run opts hb s es).1 = false) := by
  intro es
  induction es with
  | nil =>
    intro s hmax _
    exact ⟨by simp [run], fun h => by simpa [run] using h⟩
  | cons e rest ih =>
    intro s hmax hno
    have hne : e ≠ Event.transportOpen := fun h => hno (by simp [h])
    have hnr : Event.transportOpen ∉ rest := fun h => hno (List.mem_cons_of_mem _ h)
    have hmax' : opts.reconnectAttempts ≤
        (step opts hb s e).1.currentReconnectAttempts :=
      le_trans hmax (step_counter_nondecreasing opts hb s e hne)
    have ihr := ih (step opts hb s e).1 hmax' hnr
    constructor
    · intro hmem
      simp only [run] at hmem
      rcases List.mem_append.mp hmem with h1 | h2
      · have hcl := scheduled_mem_step opts hb s e h1
        omega
      · exact ihr.1 h2
    · intro hc
      simp only [run]
      exact ihr.2 (step_preserves_disconnected opts hb s e hc hne)

theorem C1_max_attempts_halt_reconnection_witness :
    Output.scheduledReconnect ∉
      (run (Options.mk 2 100 30000) (fun _ => false)
        (run (Options.mk 2 100 30000) (fun _ => false) ClientState.init
          [Event.callConnect, Event.transportClose, Event.advance 100,
           Event.fireReconnect, Event.transportClose, Event.advance 100,
           Event.fireReconnect]).1
        [Event.transportClose, Event.transportClose]).2 :=
  (C1_max_attempts_halt_reconnection (Options.mk 2 100 30000) (fun _ => false)
    [Event.transportClose, Event.transportClose]
    (run (Options.mk 2 100 30000) (fun _ => false) ClientState.init
      [Event.callConnect, Event.transportClose, Event.advance 100,
       Event.fireReconnect, Event.transportClose, Event.advance 100,
       Event.fireReconnect]).1
    (by decide) (by decide)).1

/-- C3: `disconnect()` sets the manual-close flag, and from the resulting
state any sequence of later events that contains no successful transport
open — in particular the late-arriving close event of the socket it closed —
never schedules a reconnect timer, the flag remaining set throughout. -/
theorem C3_disconnect_suppresses_reconnect (opts : Options) (hb : Nat → Bool)
    (s : ClientState) (es : List Event) (hno : Event.transportOpen ∉ es) :
    (disconnect s).isManualClose = true ∧
    Output.scheduledReconnect ∉ (run opts hb (disconnect s) es).2 ∧
    (run opts hb (disconnect s) es).1.isManualClose = true := by
  have hm : (disconnect s).isManualClose = true := by simp [disconnect]
  exact ⟨hm, (manualClose_run opts hb es _ hm hno).1,
    (manualClose_run opts hb es _ hm hno).2⟩

theorem C3_disconnect_suppresses_reconnect_witness :
    Output.scheduledReconnect ∉
      (run defaultOptions (fun _ => false)
        (disconnect (connectCall ClientState.init)) [Event.transportClose]).2 :=
  (C3_disconnect_suppresses_reconnect defaultOptions (fun _ => false)
    (connectCall ClientState.init) [Event.transportClose] (by decide)).2.1

/-! ### Timer-count invariant -/

theorem timersOK_stopHeartbeat (s : ClientState) (h : timersOK s) :
    timersOK (stopHeartbeat s) := by
  obtain ⟨hr, hh⟩ := h
  unfold timersOK stopHeartbeat
  split <;> simp_all

theorem timersOK_clearReconnectTimer (s : ClientState) (h : timersOK s) :
    timersOK (clearReconnectTimer s) := by
  obtain ⟨hr, hh⟩ := h
  unfold timersOK clearReconnectTimer
  split <;> simp_all

theorem timersOK_startHeartbeat (opts : Options) (s : ClientState)
    (h : timersOK s) : timersOK (startHeartbeat opts s) := by
  obtain ⟨hr, hh⟩ := timersOK_stopHeartbeat s h
  unfold timersOK startHeartbeat
  constructor
  · simpa using hr
  · simp [hh]

theorem timersOK_scheduleReconnect (opts : Options) (s : ClientState)
    (h : timersOK s) : timersOK (scheduleReconnect opts s).1 := by
  obtain ⟨hr, hh⟩ := h
  unfold timersOK scheduleReconnect
  split <;> simp_all

theorem step_timersOK (opts : Options) (hb : Nat → Bool) (s : ClientState)
    (e : Event) (h : timersOK s) : timersOK (step opts hb s e).1 := by
  obtain ⟨hr, hh⟩ := h
  cases e with
  | transportOpen =>
    simp only [step]
    unfold stepOpen
    split
    · exact timersOK_startHeartbeat opts _ ⟨hr, hh⟩
    · exact ⟨hr, hh⟩
  | transportClose =>
    simp only [step]
    unfold stepClose
    have hc : timersOK (closedState s) := timersOK_stopHeartbeat _ ⟨hr, hh⟩
    split
    · exact timersOK_scheduleReconnect opts _ hc
    · exact hc
  | transportError => exact ⟨hr, hh⟩
  | transportMessage p => cases p <;> exact ⟨hr, hh⟩
  | fireReconnect =>
    simp only [step]
    unfold fireReconnect
    split
    · next hg =>
      have hrt : s.reconnectTimer = true := by
        cases hx : s.reconnectTimer
        · rw [hx] at hr; simp at hr; exact absurd hr hg.1
        · rfl
      unfold timersOK connectCall
      constructor
      · simp [hr, hrt]
      · simpa using hh
    · exact ⟨hr, hh⟩
  | fireHeartbeat thr =>
    simp only [step]
    unfold fireHeartbeat
    split
    · split <;> exact ⟨hr, hh⟩
    · exact ⟨hr, hh⟩
  | callConnect => exact ⟨hr, hh⟩
  | callDisconnect =>
    simp only [step]
    unfold disconnect
    have h1 : timersOK (clearReconnectTimer { s with isManualClose := true }) :=
      timersOK_clearReconnectTimer _ ⟨hr, hh⟩
    have h2 := timersOK_stopHeartbeat _ h1
    exact ⟨h2.1, h2.2⟩
  | callSend d thr => exact ⟨hr, hh⟩
  | callSubscribe t hh2 => exact ⟨hr, hh⟩
  | callUnsubscribe t hh2 => exact ⟨hr, hh⟩
  | advance d => exact ⟨hr, hh⟩

theorem reachable_timersOK (opts : Options) (hb : Nat → Bool) (s : ClientState)
    (h : Reachable opts hb s) : timersOK s := by
  induction h with
  | init => exact ⟨rfl, rfl⟩
  | next e _ ih => exact step_timersOK _ _ _ e ih

/-- C5: in every reachable state at most one reconnect timeout and at most
one heartbeat interval are pending in the event loop; `scheduleReconnect`
with a stored handle is a complete no-op, and `startHeartbeat` always leaves
exactly one pending heartbeat interval. -/
theorem C5_at_most_one_timer (opts : Options) (hb : Nat → Bool) (s : ClientState)
    (hreach : Reachable opts hb s) :
    s.reconnectPendingCount ≤ 1 ∧ s.heartbeatPendingCount ≤ 1 ∧
    (s.reconnectTimer = true → scheduleReconnect opts s = (s, [])) ∧
    (startHeartbeat opts s).heartbeatPendingCount = 1 := by
  obtain ⟨h1, h2⟩ := reachable_timersOK opts hb s hreach
  refine ⟨?_, ?_, ?_, ?_⟩
  · rw [h1]; split <;> omega
  · rw [h2]; split <;> omega
  · intro ht; unfold scheduleReconnect; simp [ht]
  · have h3 := (timersOK_startHeartbeat opts s ⟨h1, h2⟩).2
    simpa using h3

theorem C5_at_most_one_timer_witness :
    ClientState.init.reconnectPendingCount ≤ 1 ∧
    ClientState.init.heartbeatPendingCount ≤ 1 ∧
    (ClientState.init.reconnectTimer = true →
      scheduleReconnect defaultOptions ClientState.init = (ClientState.init, [])) ∧
    (startHeartbeat defaultOptions ClientState.init).heartbeatPendingCount = 1 :=
  C5_at_most_one_timer defaultOptions (fun _ => false) ClientState.init
    Reachable.init

/-! ### Registry lemmas and the double-subscription behaviour -/

theorem mem_setAdd (l : List Nat) (h : Nat) : h ∈ setAdd l h := by
  unfold setAdd
  split
  · assumption
  · simp

theorem regHandlers_cons_self (k : String) (v : List Nat)
    (rest : List (String × List Nat)) : regHandlers ((k, v) :: rest) k = v := by
  simp [regHandlers, List.lookup]

theorem regHandlers_cons_ne (k t : String) (v : List Nat)
    (rest : List (String × List Nat)) (h : t ≠ k) :
    regHandlers ((k, v) :: rest) t = regHandlers rest t := by
  simp [regHandlers, List.lookup, beq_false_of_ne h]

theorem regHandlers_eq_nil_of_not_key (m : List (String × List Nat)) (t : String)
    (h : t ∉ m.map Prod.fst) : regHandlers m t = [] := by
  induction m with
  | nil => rfl
  | cons kv rest ih =>
    obtain ⟨k, v⟩ := kv
    simp only [List.map_cons, List.mem_cons] at h
    push_neg at h
    rw [regHandlers_cons_ne k t v rest h.1]
    exact ih h.2

theorem mem_regHandlers_subscribeReg (m : List (String × List Nat)) (t : String)
    (h : Nat) : h ∈ regHandlers (subscribeReg m t h) t := by
  induction m with
  | nil =>
    show h ∈ regHandlers [(t, [h])] t
    rw [regHandlers_cons_self]
    simp
  | cons kv rest ih =>
    obtain ⟨k, v⟩ := kv
    by_cases hk : k = t
    · subst hk
      unfold subscribeReg
      rw [if_pos rfl, regHandlers_cons_self]
      exact mem_setAdd v h
    · simp only [subscribeReg, if_neg hk]
      rwa [regHandlers_cons_ne k t _ _ (Ne.symm hk)]

theorem not_mem_regHandlers_unsubscribeReg (m : List (String × List Nat))
    (t : String) (h : Nat) (hkeys : (m.map Prod.fst).Nodup)
    (hnd : (regHandlers m t).Nodup) :
    h ∉ regHandlers (unsubscribeReg m t h) t := by
  induction m with
  | nil => simp [unsubscribeReg, regHandlers, List.lookup]
  | cons kv rest ih =>
    obtain ⟨k, v⟩ := kv
    simp only [List.map_cons, List.nodup_cons] at hkeys
    by_cases hk : k = t
    · subst hk
      rw [regHandlers_cons_self] at hnd
      unfold unsubscribeReg
      rw [if_pos rfl]
      by_cases hemp : v.erase h = []
      · rw [if_pos hemp, regHandlers_eq_nil_of_not_key rest k hkeys.1]
        simp
      · rw [if_neg hemp, regHandlers_cons_self]
        intro hmem
        exact ((List.Nodup.mem_erase_iff hnd).mp hmem).1 rfl
    · unfold unsubscribeReg
      rw [if_neg hk]
      rw [regHandlers_cons_ne k t _ _ (Ne.symm hk)] at hnd ⊢
      exact ih hkeys.2 hnd

/-- C4 counterexample: subscribing the same handler reference twice for the
same type and then delivering one message of that type invokes the handler
once, not twice — the `Set`-backed registry treats identical references as a
single registration. -/
theorem C4_same_handler_twice_counterexample :
    ¬ countOut (Output.invokedHandler 7 5)
        (step defaultOptions (fun _ => false)
          (run defaultOptions (fun _ => false) ClientState.init
            [Event.callSubscribe "price_update" 7,
             Event.callSubscribe "price_update" 7]).1
          (Event.transportMessage (some (Msg.mk "price_update" 5)))).2 = 2 := by
  decide

/-- C4 (amended): two `subscribe` calls with the same handler reference for
the same type leave a single registration, so one inbound message of that
type invokes the handler exactly once; the unsubscribe closure of either
call removes that single registration; with two distinct handlers,
unsubscribing one removes only its own registration. -/
theorem C4_set_registry_dedupes (opts : Options) (hb : Nat → Bool)
    (t : String) (h h' d : Nat) (hne : h' ≠ h) :
    countOut (Output.invokedHandler h d)
      (step opts hb
        (run opts hb ClientState.init
          [Event.callSubscribe t h, Event.callSubscribe t h]).1
        (Event.transportMessage (some (Msg.mk t d)))).2 = 1 ∧
    handlersFor (step opts hb
        (run opts hb ClientState.init
          [Event.callSubscribe t h, Event.callSubscribe t h]).1
        (Event.callUnsubscribe t h)).1 t = [] ∧
    handlersFor (step opts hb
        (run opts hb ClientState.init
          [Event.callSubscribe t h, Event.callSubscribe t h']).1
        (Event.callUnsubscribe t h)).1 t = [h'] := by
  refine ⟨?_, ?_, ?_⟩
  · cases hhb : hb h <;>
      simp [run, step, ClientState.init, subscribeReg, setAdd, stepMessage,
        handleMessage, handlersFor, regHandlers, List.lookup, dispatchHandlers,
        invokeOne, countOut, hhb]
  · simp [run, step, ClientState.init, subscribeReg, setAdd, unsubscribeReg,
      handlersFor, regHandlers, List.lookup]
  · simp [run, step, ClientState.init, subscribeReg, setAdd, unsubscribeReg,
      handlersFor, regHandlers, List.lookup, hne, Ne.symm hne]

theorem C4_set_registry_dedupes_witness :
    countOut (Output.invokedHandler 7 5)
      (step defaultOptions (fun _ => false)
        (run defaultOptions (fun _ => false) ClientState.init
          [Event.callSubscribe "price_update" 7,
           Event.callSubscribe "price_update" 7]).1
        (Event.transportMessage (some (Msg.mk "price_update" 5)))).2 = 1 :=
  (C4_set_registry_dedupes defaultOptions (fun _ => false) "price_update" 7 9 5
    (by decide)).1

/-! ### Heartbeat probe lemmas -/

/-- Outside the public `send` API, the only frame the client ever writes is
the heartbeat probe, and only from a due heartbeat tick while connected. -/
theorem sent_mem_step (opts : Options) (hb : Nat → Bool) (s : ClientState)
    (e : Event) (d : SendArg) (hsend : e.isCallSend = false)
    (hmem : Output.sent d ∈ (step opts hb s e).2) :
    (∃ thr, e = Event.fireHeartbeat thr) ∧ isConnected s = true ∧
      s.heartbeatPendingCount ≠ 0 ∧ s.heartbeatDue ≤ s.now ∧
      d = SendArg.pingMsg s.now := by
  cases e with
  | transportOpen =>
    simp only [step] at hmem
    unfold stepOpen at hmem
    split at hmem <;> simp at hmem
  | transportClose =>
    simp only [step] at hmem
    unfold stepClose at hmem
    split at hmem
    · unfold scheduleReconnect at hmem
      split at hmem <;> simp at hmem
    · simp at hmem
  | transportError => simp [step, stepError] at hmem
  | transportMessage p =>
    cases p with
    | none => simp [step, stepMessage] at hmem
    | some m =>
      have := handleMessage_outputs hb s m (Output.sent d)
        (by simpa [step, stepMessage] using hmem)
      rcases this with h | ⟨h, hh⟩ | ⟨h, hh⟩ <;> simp_all
  | fireReconnect =>
    simp only [step] at hmem
    unfold fireReconnect at hmem
    split at hmem <;> simp at hmem
  | fireHeartbeat thr =>
    simp only [step] at hmem
    unfold fireHeartbeat at hmem
    split at hmem
    · next hg =>
      split at hmem
      · next hic =>
        have hclass := send_outputs _ _ thr (Output.sent d) hmem
        have hd : d = SendArg.pingMsg s.now := by
          rcases hclass with h1 | h1 | h1
          · simpa using h1
          · simp at h1
          · simp at h1
        rw [isConnected_heartbeatTick] at hic
        exact ⟨⟨thr, rfl⟩, hic, hg.1, hg.2, hd⟩
      · simp at hmem
    · simp at hmem
  | callConnect => simp [step] at hmem
  | callDisconnect => simp [step] at hmem
  | callSend d2 thr => simp [Event.isCallSend] at hsend
  | callSubscribe t h => simp [step] at hmem
  | callUnsubscribe t h => simp [step] at hmem
  | advance d2 => simp [step] at hmem

/-- Heartbeat scheduling invariant relative to a reference instant `T`: the
clock is past `T` and any pending heartbeat interval is due no earlier than
`T + heartbeatInterval`. -/
def hbInv (opts : Options) (T : Nat) (s : ClientState) : Prop :=
  T ≤ s.now ∧
    (s.heartbeatPendingCount ≠ 0 → T + opts.heartbeatInterval ≤ s.heartbeatDue)

theorem hbInv_of_fields (opts : Options) (T : Nat) (s s' : ClientState)
    (h : hbInv opts T s) (hnow : s'.now = s.now)
    (hcnt : s'.heartbeatPendingCount = s.heartbeatPendingCount)
    (hdue : s'.heartbeatDue = s.heartbeatDue) : hbInv opts T s' := by
  obtain ⟨h1, h2⟩ := h
  exact ⟨hnow ▸ h1, fun hc => by rw [hdue]; exact h2 (by rwa [hcnt] at hc)⟩

theorem hbInv_stopHeartbeat (opts : Options) (T : Nat) (s : ClientState)
    (h : hbInv opts T s) : hbInv opts T (stopHeartbeat s) := by
  obtain ⟨hT, hdue⟩ := h
  unfold stopHeartbeat
  split
  · refine ⟨hT, fun hc => ?_⟩
    have hc2 : s.heartbeatPendingCount - 1 ≠ 0 := hc
    exact hdue (by omega)
  · exact ⟨hT, hdue⟩

theorem hbInv_startHeartbeat (opts : Options) (T : Nat) (s : ClientState)
    (hT : T ≤ s.now) : hbInv opts T (startHeartbeat opts s) := by
  refine ⟨?_, fun _ => ?_⟩
  · simpa using hT
  · rw [startHeartbeat_heartbeatDue]
    exact Nat.add_le_add_right hT opts.heartbeatInterval

theorem hbInv_heartbeatTick (opts : Options) (T : Nat) (s : ClientState)
    (hT : T ≤ s.now) : hbInv opts T (heartbeatTick opts s) := by
  refine ⟨?_, fun _ => ?_⟩
  · simpa using hT
  · rw [heartbeatTick_heartbeatDue]
    exact Nat.add_le_add_right hT opts.heartbeatInterval

theorem step_hbInv (opts : Options) (hb : Nat → Bool) (s : ClientState)
    (e : Event) (T : Nat) (h : hbInv opts T s) :
    hbInv opts T (step opts hb s e).1 := by
  cases e with
  | transportOpen =>
    simp only [step]
    unfold stepOpen
    split
    · exact hbInv_startHeartbeat opts T _ h.1
    · exact h
  | transportClose =>
    simp only [step]
    unfold stepClose
    have hcs : hbInv opts T (closedState s) :=
      hbInv_stopHeartbeat opts T _ (hbInv_of_fields opts T s _ h rfl rfl rfl)
    split
    · exact hbInv_of_fields opts T (closedState s) _ hcs (by simp) (by simp)
        (by simp)
    · exact hcs
  | transportError => exact h
  | transportMessage p => cases p <;> exact h
  | fireReconnect =>
    simp only [step]
    unfold fireReconnect
    split
    · exact hbInv_of_fields opts T s _ h rfl rfl rfl
    · exact h
  | fireHeartbeat thr =>
    simp only [step]
    unfold fireHeartbeat
    split
    · split
      · exact hbInv_heartbeatTick opts T s h.1
      · exact hbInv_heartbeatTick opts T s h.1
    · exact h
  | callConnect => exact hbInv_of_fields opts T s _ h rfl rfl rfl
  | callDisconnect =>
    simp only [step]
    unfold disconnect
    have h1 : hbInv opts T (clearReconnectTimer { s with isManualClose := true }) := by
      unfold clearReconnectTimer
      split
      · exact hbInv_of_fields opts T s _ h rfl rfl rfl
      · exact hbInv_of_fields opts T s _ h rfl rfl rfl
    have h2 := hbInv_stopHeartbeat opts T _ h1
    exact hbInv_of_fields opts T _ _ h2 rfl rfl rfl
  | callSend d thr => exact h
  | callSubscribe t h2 => exact hbInv_of_fields opts T s _ h rfl rfl rfl
  | callUnsubscribe t h2 => exact hbInv_of_fields opts T s _ h rfl rfl rfl
  | advance d =>
    exact ⟨le_trans h.1 (Nat.le_add_right s.now d), fun hc => h.2 hc⟩

theorem run_ping_time_bound (opts : Options) (hb : Nat → Bool) (T : Nat) :
    ∀ (es : List Event) (s : ClientState), hbInv opts T s →
      (∀ e ∈ es, e.isCallSend = false) →
      ∀ tm, Output.sent (SendArg.pingMsg tm) ∈ (run opts hb s es).2 →
        T + opts.heartbeatInterval ≤ tm := by
  intro es
  induction es with
  | nil => intro s _ _ tm hmem; simp [run] at hmem
  | cons e rest ih =>
    intro s hinv hns tm hmem
    simp only [run] at hmem
    rcases List.mem_append.mp hmem with h1 | h2
    · obtain ⟨_, _, hcnt, hdue, hd⟩ := sent_mem_step opts hb s e _
        (hns e (List.mem_cons_self e rest)) h1
      have htm : tm = s.now := by simpa using hd
      subst htm
      exact le_trans (hinv.2 hcnt) hdue
    · exact ih (step opts hb s e).1 (step_hbInv opts hb s e T hinv)
        (fun e2 he2 => hns e2 (List.mem_cons_of_mem _ he2)) tm h2

theorem run_no_sent_disconnected (opts : Options) (hb : Nat → Bool) :
    ∀ (es : List Event) (s : ClientState), isConnected s = false →
      Event.transportOpen ∉ es → (∀ e ∈ es, e.isCallSend = false) →
      ∀ d, Output.sent d ∉ (run opts hb s es).2 := by
  intro es
  induction es with
  | nil => intro s _ _ _ d hmem; simp [run] at hmem
  | cons e rest ih =>
    intro s hc hno hns d hmem
    have hne : e ≠ Event.transportOpen := fun h => hno (by simp [h])
    simp only [run] at hmem
    rcases List.mem_append.mp hmem with h1 | h2
    · obtain ⟨_, hcon, _⟩ := sent_mem_step opts hb s e d
        (hns e (List.mem_cons_self e rest)) h1
      rw [hc] at hcon
      cases hcon
    · exact ih (step opts hb s e).1
        (step_preserves_disconnected opts hb s e hc hne)
        (fun h => hno (List.mem_cons_of_mem _ h))
        (fun e2 he2 => hns e2 (List.mem_cons_of_mem _ he2)) d h2

/-- C9: a due heartbeat tick while connected sends exactly one `ping` probe
carrying the current timestamp and re-arms the interval one full period
later; a tick while not connected sends nothing (and queues nothing — the
state is the same up to the re-armed due time); while disconnected no frame
at all (in particular no probe) is emitted by any event short of a transport
open; and after a successful open every probe emitted (absent direct `send`
API calls) carries a timestamp at least one full interval past the open
instant. -/
theorem C9_heartbeat_timing (opts : Options) (hb : Nat → Bool) (s : ClientState)
    (es : List Event) (thr : Bool) :
    (s.heartbeatPendingCount ≠ 0 → s.heartbeatDue ≤ s.now →
      isConnected s = true →
      (step opts hb s (Event.fireHeartbeat false)).2 =
        [Output.sent (SendArg.pingMsg s.now)] ∧
      (step opts hb s (Event.fireHeartbeat false)).1.heartbeatDue =
        s.now + opts.heartbeatInterval) ∧
    (isConnected s = false →
      (step opts hb s (Event.fireHeartbeat thr)).2 = []) ∧
    (isConnected s = false → Event.transportOpen ∉ es →
      (∀ e ∈ es, e.isCallSend = false) →
      ∀ d, Output.sent d ∉ (run opts hb s es).2) ∧
    (s.ws = some ReadyState.connecting →
      (∀ e ∈ es, e.isCallSend = false) →
      ∀ tm, Output.sent (SendArg.pingMsg tm) ∈
          (run opts hb (step opts hb s Event.transportOpen).1 es).2 →
        s.now + opts.heartbeatInterval ≤ tm) := by
  refine ⟨?_, ?_, ?_, ?_⟩
  · intro hcnt hdue hc
    have hg : s.heartbeatPendingCount ≠ 0 ∧ s.heartbeatDue ≤ s.now := ⟨hcnt, hdue⟩
    simp only [step]
    unfold fireHeartbeat
    rw [if_pos hg, if_pos (by rwa [isConnected_heartbeatTick])]
    constructor
    · unfold send
      rw [if_pos (by rwa [isConnected_heartbeatTick])]
      simp
    · simp
  · intro hc
    simp only [step]
    unfold fireHeartbeat
    split
    · rw [if_neg (by rw [isConnected_heartbeatTick, hc]; simp)]
    · rfl
  · intro hc hno hns
    exact run_no_sent_disconnected opts hb es s hc hno hns
  · intro hws hns tm hmem
    have hinv : hbInv opts s.now (step opts hb s Event.transportOpen).1 := by
      simp only [step]
      unfold stepOpen
      rw [if_pos hws]
      exact hbInv_startHeartbeat opts s.now _ (le_refl s.now)
    exact run_ping_time_bound opts hb s.now es _ hinv hns tm hmem

theorem C9_heartbeat_timing_witness :
    (step defaultOptions (fun _ => false)
      (run defaultOptions (fun _ => false) ClientState.init
        [Event.callConnect, Event.transportOpen, Event.advance 30000]).1
      (Event.fireHeartbeat false)).2 =
      [Output.sent (SendArg.pingMsg
        (run defaultOptions (fun _ => false) ClientState.init
          [Event.callConnect, Event.transportOpen, Event.advance 30000]).1.now)] :=
  ((C9_heartbeat_timing defaultOptions (fun _ => false)
    (run defaultOptions (fun _ => false) ClientState.init
      [Event.callConnect, Event.transportOpen, Event.advance 30000]).1
    [] false).1 (by decide) (by decide) (by decide)).1

/-- C10: `subscribeToStockPrices` always registers the handler under
`"price_update"`, but emits the outbound `subscribe` control frame only when
the client is connected at call time — called while disconnected it emits
nothing, and no later event (short of a direct `send` API call) ever emits
that control frame either; the returned cleanup removes the handler
registration (given the `Map`/`Set` well-formedness that holds in every
reachable registry) and emits the `unsubscribe` control frame only when
connected at cleanup time. -/
theorem C10_stock_subscription (opts : Options) (hb : Nat → Bool)
    (codes : List String) (h : Nat) (thr : Bool) (s : ClientState)
    (es : List Event) :
    h ∈ handlersFor (subscribeToStockPrices codes h thr s).1 "price_update" ∧
    (isConnected s = false → (subscribeToStockPrices codes h thr s).2 = []) ∧
    (isConnected s = true → thr = false →
      (subscribeToStockPrices codes h thr s).2 =
        [Output.sent (SendArg.subMsg codes)]) ∧
    ((∀ e ∈ es, e.isCallSend = false) →
      Output.sent (SendArg.subMsg codes) ∉
        (run opts hb (subscribeToStockPrices codes h thr s).1 es).2) ∧
    ((s.eventHandlers.map Prod.fst).Nodup →
      (handlersFor s "price_update").Nodup →
      h ∉ handlersFor (stockPriceCleanup codes h thr s).1 "price_update") ∧
    (isConnected s = false → (stockPriceCleanup codes h thr s).2 = []) ∧
    (isConnected s = true → thr = false →
      (stockPriceCleanup codes h thr s).2 =
        [Output.sent (SendArg.unsubMsg codes)]) := by
  have hic1 : isConnected (stockSubState h s) = isConnected s := rfl
  have hic2 : isConnected (stockUnsubState h s) = isConnected s := rfl
  refine ⟨?_, ?_, ?_, ?_, ?_, ?_, ?_⟩
  · unfold subscribeToStockPrices
    split <;>
      exact mem_regHandlers_subscribeReg s.eventHandlers "price_update" h
  · intro hc
    unfold subscribeToStockPrices
    rw [if_neg (by rw [hic1, hc]; simp)]
  · intro hc ht
    subst ht
    unfold subscribeToStockPrices
    rw [if_pos (by rw [hic1, hc])]
    unfold send
    rw [if_pos (by rw [hic1, hc])]
    simp
  · intro hns hmem
    have hgen : ∀ (es2 : List Event) (s2 : ClientState),
        (∀ e ∈ es2, e.isCallSend = false) →
        Output.sent (SendArg.subMsg codes) ∉ (run opts hb s2 es2).2 := by
      intro es2
      induction es2 with
      | nil => intro s2 _ hm; simp [run] at hm
      | cons e rest ih =>
        intro s2 hns2 hm
        simp only [run] at hm
        rcases List.mem_append.mp hm with h1 | h2
        · obtain ⟨_, _, _, _, hd⟩ := sent_mem_step opts hb s2 e _
            (hns2 e (List.mem_cons_self e rest)) h1
          simp at hd
        · exact ih (step opts hb s2 e).1
            (fun e2 he2 => hns2 e2 (List.mem_cons_of_mem _ he2)) h2
    exact hgen es _ hns hmem
  · intro hkeys hnd
    unfold stockPriceCleanup
    split <;>
      exact not_mem_regHandlers_unsubscribeReg s.eventHandlers "price_update" h
        hkeys hnd
  · intro hc
    unfold stockPriceCleanup
    rw [if_neg (by rw [hic2, hc]; simp)]
  · intro hc ht
    subst ht
    unfold stockPriceCleanup
    rw [if_pos (by rw [hic2, hc])]
    unfold send
    rw [if_pos (by rw [hic2, hc])]
    simp

theorem C10_stock_subscription_witness :
    (subscribeToStockPrices ["sh600000"] 7 false ClientState.init).2 = [] ∧
    7 ∉ handlersFor
      (stockPriceCleanup ["sh600000"] 7 false ClientState.init).1 "price_update" :=
  ⟨(C10_stock_subscription defaultOptions (fun _ => false) ["sh600000"] 7 false
      ClientState.init []).2.1 rfl,
   (C10_stock_subscription defaultOptions (fun _ => false) ["sh600000"] 7 false
      ClientState.init []).2.2.2.2.1 (by decide) (by decide)⟩

end WS
